import Mathlib

/-!
# ARM-stopwatch: a shallow embedding of `src/main.c`

The firmware keeps three `volatile unsigned int` counters (`ms`, `sec`, `min`) and a run flag
(`run`).  A timer interrupt (`Timer0_ISR`) advances the counters once per millisecond while the
flag is set and redraws a character LCD; the main loop polls three active-low push buttons.

Machine words are natural numbers, reduced modulo `2 ^ 32` wherever the C code increments an
`unsigned int`.  The LCD is driven through the write-only port registers `IO0SET` / `IO0CLR`;
the embedding records every write to them, in program order, in the field `io0`.
The busy-wait `delay` has no effect on the modelled state and is left out.

`sprintf` is a function from its three arguments to the bytes it stores.  Storing more bytes than
the destination array `char buffer[16]` holds is undefined behaviour in C: `lcd_display_time`
returns `none` there, and so does everything that calls it (`Timer0_ISR`, the reset branch, the
polling loop).  A result `some s` means that the code ran to completion and left the state `s`.
-/

namespace Stopwatch

/-! ## Pin assignments (`main.c`, lines 4-14) -/

def RS : Nat := 1 <<< 8
def EN : Nat := 1 <<< 9
def D4 : Nat := 1 <<< 10
def D5 : Nat := 1 <<< 11
def D6 : Nat := 1 <<< 12
def D7 : Nat := 1 <<< 13

def START : Nat := 1 <<< 14
def STOP : Nat := 1 <<< 15
def RESET : Nat := 1 <<< 16

/-- Number of values of an `unsigned int` on the 32-bit target. -/
def UINT_RANGE : Nat := 2 ^ 32

/-- Size of `char buffer[16]` in `lcd_display_time`. -/
def BUFFER_SIZE : Nat := 16

/-! ## Machine state -/

/-- One write to a port register: `IO0SET = mask` or `IO0CLR = mask`. -/
inductive PortWrite where
  | set (mask : Nat)
  | clr (mask : Nat)
deriving DecidableEq, Repr

/-- The globals of `main.c` (lines 17-18), the two interrupt registers written by the ISR, and
the trace of port writes. -/
structure State where
  ms : Nat
  sec : Nat
  min : Nat
  run : Nat
  T0IR : Nat
  VICVectAddr : Nat
  io0 : List PortWrite
deriving DecidableEq, Repr

/-- The elapsed time as the triple (minutes, seconds, milliseconds). -/
def elapsed (s : State) : Nat × Nat × Nat := (s.min, s.sec, s.ms)

/-- Strict lexicographic order on (minutes, seconds, milliseconds). -/
def lexLt (a b : Nat × Nat × Nat) : Prop :=
  a.1 < b.1 ∨ (a.1 = b.1 ∧ (a.2.1 < b.2.1 ∨ (a.2.1 = b.2.1 ∧ a.2.2 < b.2.2)))

instance (a b : Nat × Nat × Nat) : Decidable (lexLt a b) := by
  unfold lexLt; infer_instance

/-! ## LCD driver (`main.c`, lines 113-171) -/

/-- Function `lcd_cmd` (lines 114-133): the port writes that send one command byte, high nibble
first, each nibble latched by a pulse on `EN`. -/
def lcd_cmd (cmd : Nat) : List PortWrite :=
  let cmd := cmd % 256
  [PortWrite.clr RS, PortWrite.clr (D4 ||| D5 ||| D6 ||| D7)]
    ++ (if cmd &&& 0x10 ≠ 0 then [PortWrite.set D4] else [])
    ++ (if cmd &&& 0x20 ≠ 0 then [PortWrite.set D5] else [])
    ++ (if cmd &&& 0x40 ≠ 0 then [PortWrite.set D6] else [])
    ++ (if cmd &&& 0x80 ≠ 0 then [PortWrite.set D7] else [])
    ++ [PortWrite.set EN, PortWrite.clr EN]
    ++ [PortWrite.clr (D4 ||| D5 ||| D6 ||| D7)]
    ++ (if cmd &&& 0x01 ≠ 0 then [PortWrite.set D4] else [])
    ++ (if cmd &&& 0x02 ≠ 0 then [PortWrite.set D5] else [])
    ++ (if cmd &&& 0x04 ≠ 0 then [PortWrite.set D6] else [])
    ++ (if cmd &&& 0x08 ≠ 0 then [PortWrite.set D7] else [])
    ++ [PortWrite.set EN, PortWrite.clr EN]

/-- Function `lcd_data` (lines 136-155): as `lcd_cmd`, with `RS` raised instead of lowered. -/
def lcd_data (data : Nat) : List PortWrite :=
  let data := data % 256
  [PortWrite.set RS, PortWrite.clr (D4 ||| D5 ||| D6 ||| D7)]
    ++ (if data &&& 0x10 ≠ 0 then [PortWrite.set D4] else [])
    ++ (if data &&& 0x20 ≠ 0 then [PortWrite.set D5] else [])
    ++ (if data &&& 0x40 ≠ 0 then [PortWrite.set D6] else [])
    ++ (if data &&& 0x80 ≠ 0 then [PortWrite.set D7] else [])
    ++ [PortWrite.set EN, PortWrite.clr EN]
    ++ [PortWrite.clr (D4 ||| D5 ||| D6 ||| D7)]
    ++ (if data &&& 0x01 ≠ 0 then [PortWrite.set D4] else [])
    ++ (if data &&& 0x02 ≠ 0 then [PortWrite.set D5] else [])
    ++ (if data &&& 0x04 ≠ 0 then [PortWrite.set D6] else [])
    ++ (if data &&& 0x08 ≠ 0 then [PortWrite.set D7] else [])
    ++ [PortWrite.set EN, PortWrite.clr EN]

/-- Function `lcd_init` (lines 158-164): five commands. -/
def lcd_init : List PortWrite :=
  lcd_cmd 0x02 ++ lcd_cmd 0x28 ++ lcd_cmd 0x0C ++ lcd_cmd 0x06 ++ lcd_cmd 0x01

/-- Function `lcd_string` (lines 167-171): the bytes found at `ptr` are sent one by one up to, and not
including, the first NUL byte. -/
def lcd_string : List Nat → List PortWrite
  | [] => []
  | c :: rest => if c = 0 then [] else lcd_data c ++ lcd_string rest

/-! ## `sprintf(buffer, "Time %02d:%02d:%03d", min, sec, ms)` (line 177)

`sprintf` is the C library's, modelled after the C standard's description of the conversion.
The arguments `min`, `sec`, `ms` are `unsigned int`, the conversion `%0Nd` takes an `int`: the
32-bit word passed for it is read as a two's complement number, written in decimal without
leading zeros, and then padded with zeros on the left, after the sign, up to the field
width `N`. -/

/-- The character of one decimal digit. -/
def digitChar (d : Nat) : Char := Char.ofNat (48 + d)

/-- Digit generation, least significant digit first, accumulating to the left. -/
def utoaAux : Nat → Nat → List Char → List Char
  | 0, _, acc => acc
  | fuel + 1, n, acc =>
    if n < 10 then digitChar n :: acc
    else utoaAux fuel (n / 10) (digitChar (n % 10) :: acc)

/-- Decimal digits of `n`, most significant first, without leading zeros (`"0"` for zero). -/
def utoa (n : Nat) : List Char := utoaAux (n + 1) n []

/-- Left padding with `'0'` up to `width` characters; longer inputs are kept whole. -/
def zeroPad (width : Nat) (ds : List Char) : List Char :=
  List.replicate (width - ds.length) '0' ++ ds

/-- The 32-bit word `v` read as an `int`. -/
def asInt (v : Nat) : Int :=
  if v % UINT_RANGE < 2 ^ 31 then ((v % UINT_RANGE : Nat) : Int)
  else ((v % UINT_RANGE : Nat) : Int) - (UINT_RANGE : Int)

/-- The conversion `%0<width>d` applied to the `int` value `v`. -/
def fmt_0d (width : Nat) (v : Int) : List Char :=
  if v < 0 then '-' :: zeroPad (width - 1) (utoa v.natAbs)
  else zeroPad width (utoa v.toNat)

/-- The characters produced by `sprintf` for the format `"Time %02d:%02d:%03d"`. -/
def sprintf_time (min sec ms : Nat) : List Char :=
  ['T', 'i', 'm', 'e', ' '] ++ fmt_0d 2 (asInt min) ++ [':'] ++ fmt_0d 2 (asInt sec)
    ++ [':'] ++ fmt_0d 3 (asInt ms)

/-- Bytes stored by `sprintf`: the characters followed by the terminating NUL. -/
def sprintf_bytes (min sec ms : Nat) : List Nat :=
  (sprintf_time min sec ms).map Char.toNat ++ [0]

/-- The bytes stored by `sprintf` for this time fit the 16-byte `buffer`. -/
def frame_fits (min sec ms : Nat) : Prop := (sprintf_bytes min sec ms).length ≤ BUFFER_SIZE

instance (min sec ms : Nat) : Decidable (frame_fits min sec ms) := by
  unfold frame_fits; infer_instance

/-- Function `lcd_display_time` (lines 174-179): cursor to the first line, format the three
counters into `buffer`, send `buffer` to the LCD.  When `sprintf` would write past the end of
`buffer` the behaviour is undefined and the result is `none`. -/
def lcd_display_time (s : State) : Option State :=
  if frame_fits s.min s.sec s.ms then
    some { s with io0 := s.io0 ++ lcd_cmd 0x80 ++ lcd_string (sprintf_bytes s.min s.sec s.ms) }
  else none

/-! ## Timer interrupt (`main.c`, lines 30-45) -/

/-- Function `Timer0_ISR` (lines 30-45): one tick callback, run to completion. -/
def Timer0_ISR (s : State) : Option State :=
  (if s.run ≠ 0 then
      let s := { s with ms := (s.ms + 1) % UINT_RANGE }
      let s := if s.ms ≥ 1000 then { s with ms := 0, sec := (s.sec + 1) % UINT_RANGE } else s
      let s := if s.sec ≥ 60 then { s with sec := 0, min := (s.min + 1) % UINT_RANGE } else s
      lcd_display_time s
    else some s).map (fun s => { s with T0IR := 1, VICVectAddr := 0 })

/-- The state after `n` successive tick callbacks, `none` once one of them is undefined. -/
def ticks : Nat → State → Option State
  | 0, s => some s
  | n + 1, s => (ticks n s).bind Timer0_ISR

/-! ## Main loop (`main.c`, lines 47-88) -/

/-- Values of the globals at program start (lines 17-18), nothing written yet. -/
def boot : State :=
  { ms := 0, sec := 0, min := 0, run := 0, T0IR := 0, VICVectAddr := 0, io0 := [] }

/-- The part of `main` before the timer is armed that touches the modelled state
(lines 56-57): LCD initialisation and the welcome message. -/
def main_setup (s : State) : State :=
  { s with io0 := s.io0 ++ lcd_init
      ++ lcd_string ((" Stopwatch Ready ".toList.map Char.toNat) ++ [0]) }

/-- The state in which the polling loop is entered. -/
def initial : State := main_setup boot

/-- Body of the start branch (line 73): `run = 1`. -/
def on_start (s : State) : State := { s with run := 1 }

/-- Body of the stop branch (line 78): `run = 0`. -/
def on_stop (s : State) : State := { s with run := 0 }

/-- Line 83, `run = 0`. -/
def reset_clear_run (s : State) : State := { s with run := 0 }

/-- Line 84, innermost assignment `min = 0`. -/
def reset_clear_min (s : State) : State := { s with min := 0 }

/-- Line 84, middle assignment `sec = ...`, storing the zero just assigned. -/
def reset_clear_sec (s : State) : State := { s with sec := 0 }

/-- Line 84, outermost assignment `ms = ...`. -/
def reset_clear_ms (s : State) : State := { s with ms := 0 }

/-- Body of the reset branch (lines 83-85), without interruption. -/
def on_reset (s : State) : Option State :=
  lcd_display_time (reset_clear_ms (reset_clear_sec (reset_clear_min (reset_clear_run s))))

/-- One iteration of `while (1)` (lines 70-87) with no interrupt taken.  `IO0PIN` is read three
times; `pin1`, `pin2`, `pin3` are the values read at lines 72, 77 and 82. -/
def loop_body (pin1 pin2 pin3 : Nat) (s : State) : Option State :=
  let s := if pin1 &&& START = 0 then on_start s else s
  let s := if pin2 &&& STOP = 0 then on_stop s else s
  if pin3 &&& RESET = 0 then on_reset s else some s

/-- The atomic actions of the system: a tick callback or the body of one button branch. -/
inductive Event where
  | tick
  | start
  | stop
  | reset
deriving DecidableEq, Repr

/-- Effect of one event. -/
def step (s : State) : Event → Option State
  | Event.tick => Timer0_ISR s
  | Event.start => some (on_start s)
  | Event.stop => some (on_stop s)
  | Event.reset => on_reset s

/-- Effect of a finite sequence of events, first event first; `none` once a step is undefined. -/
def exec : State → List Event → Option State
  | s, [] => some s
  | s, e :: rest => (step s e).bind (fun t => exec t rest)

/-- The reset branch with tick callbacks interleaved between its writes: `j0` ticks after
`run = 0`, `j1` after `min = 0`, `j2` after `sec = 0`, `j3` after `ms = 0`, then the redraw. -/
def reset_interleaved (j0 j1 j2 j3 : Nat) (s : State) : Option State :=
  (ticks j0 (reset_clear_run s)).bind (fun a =>
    (ticks j1 (reset_clear_min a)).bind (fun b =>
      (ticks j2 (reset_clear_sec b)).bind (fun c =>
        (ticks j3 (reset_clear_ms c)).bind lcd_display_time)))

/-- The states in which the `n` tick callbacks started from `s` are entered. -/
def tick_entries : Nat → State → List State
  | 0, _ => []
  | n + 1, s =>
    s :: (match Timer0_ISR s with
      | some t => tick_entries n t
      | none => [])

/-- Every state in which a tick callback is entered during `reset_interleaved`. -/
def reset_tick_entries (j0 j1 j2 j3 : Nat) (s : State) : List State :=
  tick_entries j0 (reset_clear_run s) ++
    (match ticks j0 (reset_clear_run s) with
      | none => []
      | some a =>
        tick_entries j1 (reset_clear_min a) ++
          (match ticks j1 (reset_clear_min a) with
            | none => []
            | some b =>
              tick_entries j2 (reset_clear_sec b) ++
                (match ticks j2 (reset_clear_sec b) with
                  | none => []
                  | some c => tick_entries j3 (reset_clear_ms c))))

/-! ## The format the specification asks for -/

/-- Spec-side rendering of "Time MM:SS:mmm": minutes written in decimal (the standard decimal
numeral of the natural number) with a leading zero when it has a single digit, seconds as
exactly two digits, milliseconds as exactly three digits. -/
def spec_time_string (min sec ms : Nat) : List Char :=
  ['T', 'i', 'm', 'e', ' ']
    ++ (if min < 10 then '0' :: Nat.toDigits 10 min else Nat.toDigits 10 min)
    ++ [':', Nat.digitChar (sec / 10), Nat.digitChar (sec % 10)]
    ++ [':', Nat.digitChar (ms / 100), Nat.digitChar (ms / 10 % 10), Nat.digitChar (ms % 10)]

/-- The range invariant of the counters. -/
def Normalised (s : State) : Prop := s.ms ≤ 999 ∧ s.sec ≤ 59

instance (s : State) : Decidable (Normalised s) := by
  unfold Normalised; infer_instance

/-! ## Concrete states used as test inputs -/

/-- A running state at the last representable instant: minutes at `UINT_MAX`, 59 s, 999 ms. -/
def state_at_wrap : State :=
  { ms := 999, sec := 59, min := 4294967295, run := 1, T0IR := 0, VICVectAddr := 0, io0 := [] }

/-- A running state one millisecond before minute 1000. -/
def state_999_59_999 : State :=
  { ms := 999, sec := 59, min := 999, run := 1, T0IR := 0, VICVectAddr := 0, io0 := [] }

/-- A running state about to carry into seconds and minutes. -/
def state_carry : State :=
  { ms := 999, sec := 59, min := 7, run := 1, T0IR := 0, VICVectAddr := 0, io0 := [] }

/-- A running state showing 1 min 30 s 250 ms. -/
def state_1_30_250 : State :=
  { ms := 250, sec := 30, min := 1, run := 1, T0IR := 0, VICVectAddr := 0, io0 := [] }

/-- A stopped state whose counters are out of range. -/
def state_stopped_odd : State :=
  { ms := 1234, sec := 77, min := 5, run := 0, T0IR := 0, VICVectAddr := 0, io0 := [] }

/-! ## Facts about the `%0Nd` conversion -/

theorem utoaAux_succ (f n : Nat) (acc : List Char) :
    utoaAux (f + 1) n acc
      = if n < 10 then digitChar n :: acc else utoaAux f (n / 10) (digitChar (n % 10) :: acc) :=
  rfl

theorem utoaAux_length_acc (f n : Nat) (acc : List Char) :
    acc.length ≤ (utoaAux f n acc).length := by
  induction f generalizing n acc with
  | zero => exact Nat.le_refl _
  | succ f ih =>
    rw [utoaAux_succ]
    split_ifs
    · simp
    · have := ih (n / 10) (digitChar (n % 10) :: acc)
      simp only [List.length_cons] at this
      omega

theorem utoaAux_length_ge (k : Nat) :
    ∀ (f n : Nat) (acc : List Char), 10 ^ k ≤ n → k < f →
      k + 1 + acc.length ≤ (utoaAux f n acc).length := by
  induction k with
  | zero =>
    intro f n acc _ hf
    obtain ⟨f, rfl⟩ : ∃ g, f = g + 1 := ⟨f - 1, by omega⟩
    rw [utoaAux_succ]
    split_ifs
    · simp; omega
    · have := utoaAux_length_acc f (n / 10) (digitChar (n % 10) :: acc)
      simp only [List.length_cons] at this
      omega
  | succ k ih =>
    intro f n acc hn hf
    obtain ⟨f, rfl⟩ : ∃ g, f = g + 1 := ⟨f - 1, by omega⟩
    have hpos : 0 < 10 ^ k := Nat.pos_pow_of_pos k (by decide)
    have h10 : 10 ^ (k + 1) = 10 * 10 ^ k := by rw [pow_succ]; ring
    rw [utoaAux_succ, if_neg (by omega)]
    have := ih f (n / 10) (digitChar (n % 10) :: acc) (by omega) (by omega)
    simp only [List.length_cons] at this
    omega

theorem utoaAux_length_le (f : Nat) :
    ∀ (k n : Nat) (acc : List Char), 0 < k → n < 10 ^ k →
      (utoaAux f n acc).length ≤ k + acc.length := by
  induction f with
  | zero => intro k n acc _ _; simp [utoaAux]
  | succ f ih =>
    intro k n acc hk hn
    rw [utoaAux_succ]
    split_ifs with c
    · simp; omega
    · obtain ⟨k, rfl⟩ : ∃ j, k = j + 1 := ⟨k - 1, by omega⟩
      have h10 : 10 ^ (k + 1) = 10 * 10 ^ k := by rw [pow_succ]; ring
      have hk0 : 0 < k := by
        rcases Nat.eq_zero_or_pos k with rfl | h
        · simp at hn; omega
        · exact h
      have := ih k (n / 10) (digitChar (n % 10) :: acc) hk0 (by omega)
      simp only [List.length_cons] at this
      omega

theorem lt_ten_pow_self (k : Nat) : k < 10 ^ k := by
  induction k with
  | zero => simp
  | succ k ih =>
    have h10 : 10 ^ (k + 1) = 10 * 10 ^ k := by rw [pow_succ]; ring
    omega

theorem utoa_length_ge (n k : Nat) (h : 10 ^ k ≤ n) : k + 1 ≤ (utoa n).length := by
  have hk := lt_ten_pow_self k
  have := utoaAux_length_ge k (n + 1) n [] h (by omega)
  simpa [utoa] using this

theorem utoa_length_le (n k : Nat) (hk : 0 < k) (h : n < 10 ^ k) : (utoa n).length ≤ k := by
  have := utoaAux_length_le (n + 1) k n [] hk h
  simpa [utoa] using this

theorem utoa_one_digit (n : Nat) (h : n < 10) : utoa n = [digitChar n] := by
  rw [utoa, utoaAux_succ, if_pos h]

theorem utoa_two_digits (n : Nat) (h1 : 10 ≤ n) (h2 : n < 100) :
    utoa n = [digitChar (n / 10), digitChar (n % 10)] := by
  obtain ⟨m, rfl⟩ : ∃ m, n = m + 1 := ⟨n - 1, by omega⟩
  rw [utoa, utoaAux_succ, if_neg (by omega), utoaAux_succ, if_pos (by omega)]

theorem utoa_three_digits (n : Nat) (h1 : 100 ≤ n) (h2 : n < 1000) :
    utoa n = [digitChar (n / 100), digitChar (n / 10 % 10), digitChar (n % 10)] := by
  obtain ⟨m, rfl⟩ : ∃ m, n = m + 2 := ⟨n - 2, by omega⟩
  rw [utoa, utoaAux_succ, if_neg (by omega), utoaAux_succ, if_neg (by omega), utoaAux_succ,
    if_pos (by omega)]
  have : (m + 2) / 10 / 10 = (m + 2) / 100 := by omega
  rw [this]

theorem asInt_of_lt (v : Nat) (h : v < 2 ^ 31) : asInt v = (v : Int) := by
  have hm : v % UINT_RANGE = v := Nat.mod_eq_of_lt (by unfold UINT_RANGE; omega)
  rw [asInt, hm, if_pos h]

theorem fmt_0d_nat (w v : Nat) : fmt_0d w (v : Int) = zeroPad w (utoa v) := by
  rw [fmt_0d, if_neg (by omega)]
  simp

theorem fmt_02d_small (v : Nat) (h : v < 100) :
    fmt_0d 2 (asInt v) = [digitChar (v / 10), digitChar (v % 10)] := by
  rw [asInt_of_lt v (by omega), fmt_0d_nat]
  by_cases c : v < 10
  · rw [utoa_one_digit v c, Nat.div_eq_of_lt c, Nat.mod_eq_of_lt c]
    rfl
  · rw [utoa_two_digits v (by omega) h]
    rfl

theorem fmt_03d_small (v : Nat) (h : v < 1000) :
    fmt_0d 3 (asInt v) = [digitChar (v / 100), digitChar (v / 10 % 10), digitChar (v % 10)] := by
  rw [asInt_of_lt v (by omega), fmt_0d_nat]
  by_cases c : v < 10
  · rw [utoa_one_digit v c, Nat.div_eq_of_lt (by omega : v < 100),
      Nat.div_eq_of_lt c, Nat.mod_eq_of_lt c]
    rfl
  · by_cases c2 : v < 100
    · rw [utoa_two_digits v (by omega) c2, Nat.div_eq_of_lt c2,
        Nat.mod_eq_of_lt (by omega : v / 10 < 10)]
      rfl
    · rw [utoa_three_digits v (by omega) h]
      rfl

theorem fmt_02d_minutes (v : Nat) (h : v < 2 ^ 31) :
    fmt_0d 2 (asInt v) = if v < 10 then ['0', digitChar v] else utoa v := by
  rw [asInt_of_lt v h, fmt_0d_nat]
  split_ifs with c
  · rw [utoa_one_digit v c]
    rfl
  · have := utoa_length_ge v 1 (by omega)
    rw [zeroPad, Nat.sub_eq_zero_of_le this]
    rfl

theorem digitChar_eq (d : Nat) (h : d < 10) : digitChar d = Nat.digitChar d := by
  interval_cases d <;> rfl

theorem utoaAux_eq_toDigitsCore (f : Nat) :
    ∀ (n : Nat) (acc : List Char), utoaAux f n acc = Nat.toDigitsCore 10 f n acc := by
  induction f with
  | zero => intro n acc; rfl
  | succ f ih =>
    intro n acc
    rw [utoaAux_succ, Nat.toDigitsCore]
    by_cases c : n < 10
    · rw [if_pos c, if_pos (Nat.div_eq_of_lt c), Nat.mod_eq_of_lt c, digitChar_eq n c]
    · rw [if_neg c, if_neg (by omega), ih, digitChar_eq _ (Nat.mod_lt n (by decide))]

theorem utoa_eq_toDigits (n : Nat) : utoa n = Nat.toDigits 10 n :=
  utoaAux_eq_toDigitsCore (n + 1) n []

/-- Inside the non-negative `int` range the `sprintf` model agrees with the format the
specification asks for. -/
theorem sprintf_time_eq_spec (min sec ms : Nat) (hmin : min < 2 ^ 31) (hsec : sec ≤ 59)
    (hms : ms ≤ 999) : sprintf_time min sec ms = spec_time_string min sec ms := by
  rw [sprintf_time, spec_time_string, fmt_02d_minutes min hmin, fmt_02d_small sec (by omega),
    fmt_03d_small ms (by omega), digitChar_eq (sec / 10) (by omega),
    digitChar_eq (sec % 10) (by omega), digitChar_eq (ms / 100) (by omega),
    digitChar_eq (ms / 10 % 10) (by omega), digitChar_eq (ms % 10) (by omega),
    ← utoa_eq_toDigits]
  split_ifs with c
  · rw [utoa_one_digit min c, digitChar_eq min c]
    simp
  · simp

theorem sprintf_time_length (min sec ms : Nat) (hmin : min < 2 ^ 31) (hsec : sec ≤ 59)
    (hms : ms ≤ 999) :
    (sprintf_time min sec ms).length = 12 + (if min < 10 then 2 else (utoa min).length) := by
  rw [sprintf_time, fmt_02d_minutes min hmin, fmt_02d_small sec (by omega),
    fmt_03d_small ms (by omega)]
  split_ifs
  · simp
  · simp
    omega

/-! ## When the frame fits the buffer -/

theorem sprintf_bytes_length (min sec ms : Nat) :
    (sprintf_bytes min sec ms).length = (sprintf_time min sec ms).length + 1 := by
  simp [sprintf_bytes]

theorem asInt_of_ge (v : Nat) (h1 : 2 ^ 31 ≤ v) (h2 : v < 2 ^ 32) :
    asInt v < 0 ∧ (asInt v).natAbs = 2 ^ 32 - v := by
  have hm : v % UINT_RANGE = v := Nat.mod_eq_of_lt (by unfold UINT_RANGE; omega)
  rw [asInt, hm, if_neg (by omega)]
  unfold UINT_RANGE
  constructor
  · push_cast
    omega
  · push_cast
    omega

theorem sprintf_time_length_neg (min sec ms : Nat) (h1 : 2 ^ 31 ≤ min) (h2 : min < 2 ^ 32)
    (hsec : sec ≤ 59) (hms : ms ≤ 999) :
    (sprintf_time min sec ms).length = 13 + (utoa (2 ^ 32 - min)).length := by
  obtain ⟨hneg, habs⟩ := asInt_of_ge min h1 h2
  have hlen := utoa_length_ge (2 ^ 32 - min) 0 (by omega)
  rw [sprintf_time, fmt_02d_small sec (by omega), fmt_03d_small ms (by omega), fmt_0d,
    if_pos hneg, habs, zeroPad, Nat.sub_eq_zero_of_le (by omega)]
  simp
  omega

/-- Exactly which minutes can be drawn without overrunning the buffer. -/
theorem frame_fits_iff (min sec ms : Nat) (hmin : min < 2 ^ 32) (hsec : sec ≤ 59)
    (hms : ms ≤ 999) : frame_fits min sec ms ↔ (min ≤ 999 ∨ 2 ^ 32 - 99 ≤ min) := by
  unfold frame_fits BUFFER_SIZE
  rw [sprintf_bytes_length]
  by_cases hs : min < 2 ^ 31
  · rw [sprintf_time_length min sec ms hs hsec hms]
    by_cases c : min < 10
    · rw [if_pos c]
      constructor
      · intro _; left; omega
      · intro _; omega
    · rw [if_neg c]
      by_cases c2 : min ≤ 999
      · have := utoa_length_le min 3 (by decide) (by omega)
        constructor
        · intro _; left; exact c2
        · intro _; omega
      · have := utoa_length_ge min 3 (by omega)
        constructor
        · intro h; omega
        · intro h; omega
  · rw [sprintf_time_length_neg min sec ms (by omega) hmin hsec hms]
    by_cases c : 2 ^ 32 - 99 ≤ min
    · have := utoa_length_le (2 ^ 32 - min) 2 (by decide) (by omega)
      constructor
      · intro _; right; exact c
      · intro _; omega
    · have := utoa_length_ge (2 ^ 32 - min) 2 (by omega)
      constructor
      · intro h; omega
      · intro h; omega

theorem frame_fits_of_le (min sec ms : Nat) (hmin : min ≤ 999) (hsec : sec ≤ 59)
    (hms : ms ≤ 999) : frame_fits min sec ms :=
  (frame_fits_iff min sec ms (by omega) hsec hms).mpr (Or.inl hmin)

/-! ## Basic facts about the tick callback -/

theorem lcd_display_time_some (s t : State) (h : lcd_display_time s = some t) :
    frame_fits s.min s.sec s.ms ∧ t.ms = s.ms ∧ t.sec = s.sec ∧ t.min = s.min ∧ t.run = s.run
      ∧ t.io0 = s.io0 ++ lcd_cmd 0x80 ++ lcd_string (sprintf_bytes s.min s.sec s.ms) := by
  unfold lcd_display_time at h
  split_ifs at h with c
  cases h
  exact ⟨c, rfl, rfl, rfl, rfl, rfl⟩

theorem lcd_display_time_defined (s : State) (h : frame_fits s.min s.sec s.ms) :
    ∃ t, lcd_display_time s = some t := by
  unfold lcd_display_time
  rw [if_pos h]
  exact ⟨_, rfl⟩

theorem isr_stopped (s : State) (h : s.run = 0) :
    Timer0_ISR s = some { s with T0IR := 1, VICVectAddr := 0 } := by
  simp [Timer0_ISR, h]

/-- The callback is determined by the counters, the run flag and the port trace. -/
theorem isr_congr (a b : State) (h1 : a.ms = b.ms) (h2 : a.sec = b.sec) (h3 : a.min = b.min)
    (h4 : a.run = b.run) (h5 : a.io0 = b.io0) : Timer0_ISR a = Timer0_ISR b := by
  obtain ⟨ams, asec, amin, arun, aT, aV, aio⟩ := a
  obtain ⟨bms, bsec, bmin, brun, bT, bV, bio⟩ := b
  simp only at h1 h2 h3 h4 h5
  subst h1 h2 h3 h4 h5
  unfold Timer0_ISR lcd_display_time
  dsimp only
  split_ifs <;> rfl

/-- One tick from a running state with counters in range: the callback is the redraw of the
advanced counters followed by the interrupt acknowledge. -/
theorem isr_running (s : State) (hr : s.run ≠ 0) (hms : s.ms ≤ 999) (hsec : s.sec ≤ 59) :
    Timer0_ISR s =
      (lcd_display_time
        { s with
          ms := if s.ms = 999 then 0 else s.ms + 1
          sec := if s.ms = 999 then (if s.sec = 59 then 0 else s.sec + 1) else s.sec
          min := if s.ms = 999 ∧ s.sec = 59 then (s.min + 1) % UINT_RANGE else s.min }).map
        (fun s => { s with T0IR := 1, VICVectAddr := 0 }) := by
  have h1 : (s.ms + 1) % UINT_RANGE = s.ms + 1 :=
    Nat.mod_eq_of_lt (by unfold UINT_RANGE; omega)
  have h2 : (s.sec + 1) % UINT_RANGE = s.sec + 1 :=
    Nat.mod_eq_of_lt (by unfold UINT_RANGE; omega)
  unfold Timer0_ISR
  rw [if_pos hr]
  dsimp only
  rw [h1, h2]
  by_cases c1 : s.ms = 999
  · by_cases c2 : s.sec = 59
    · simp [c1, c2]
    · have : ¬ (60 ≤ s.sec + 1) := by omega
      simp [c1, c2, this]
  · have a : ¬ (1000 ≤ s.ms + 1) := by omega
    have b : ¬ (60 ≤ s.sec) := by omega
    simp [c1, a, b]

/-- What a completed tick of a running, in-range state leaves behind. -/
theorem isr_running_some (s t : State) (hr : s.run ≠ 0) (hms : s.ms ≤ 999) (hsec : s.sec ≤ 59)
    (h : Timer0_ISR s = some t) :
    t.ms = (if s.ms = 999 then 0 else s.ms + 1)
      ∧ t.sec = (if s.ms = 999 then (if s.sec = 59 then 0 else s.sec + 1) else s.sec)
      ∧ t.min = (if s.ms = 999 ∧ s.sec = 59 then (s.min + 1) % UINT_RANGE else s.min)
      ∧ t.run = s.run := by
  rw [isr_running s hr hms hsec, Option.map_eq_some'] at h
  obtain ⟨u, hu, rfl⟩ := h
  obtain ⟨_, e1, e2, e3, e4, _⟩ := lcd_display_time_some _ u hu
  exact ⟨e1, e2, e3, e4⟩

/-- A tick of a running, in-range state completes when the minutes it has to draw are at most
999. -/
theorem isr_running_defined (s : State) (hr : s.run ≠ 0) (hms : s.ms ≤ 999) (hsec : s.sec ≤ 59)
    (hmin : s.min < 999 ∨ (s.min = 999 ∧ ¬ (s.sec = 59 ∧ s.ms = 999))) :
    ∃ t, Timer0_ISR s = some t := by
  rw [isr_running s hr hms hsec]
  have hfit : frame_fits
      (if s.ms = 999 ∧ s.sec = 59 then (s.min + 1) % UINT_RANGE else s.min)
      (if s.ms = 999 then (if s.sec = 59 then 0 else s.sec + 1) else s.sec)
      (if s.ms = 999 then 0 else s.ms + 1) := by
    apply frame_fits_of_le
    · unfold UINT_RANGE
      split_ifs <;> omega
    · split_ifs <;> omega
    · split_ifs <;> omega
  unfold lcd_display_time
  dsimp only
  rw [if_pos hfit]
  exact ⟨_, rfl⟩

theorem not_frame_fits_1000 : ¬ frame_fits 1000 0 0 := by decide

/-- A tick that has to draw minute 1000 overruns the buffer. -/
theorem isr_overrun (s : State) (hr : s.run ≠ 0) (hms : s.ms = 999) (hsec : s.sec = 59)
    (hmin : s.min = 999) : Timer0_ISR s = none := by
  have a : s.ms ≤ 999 := by omega
  have b : s.sec ≤ 59 := by omega
  rw [isr_running s hr a b]
  have e1 : (if s.ms = 999 ∧ s.sec = 59 then (s.min + 1) % UINT_RANGE else s.min) = 1000 := by
    rw [if_pos ⟨hms, hsec⟩, hmin]
    rfl
  have e2 : (if s.ms = 999 then (if s.sec = 59 then 0 else s.sec + 1) else s.sec) = 0 := by
    rw [if_pos hms, if_pos hsec]
  have e3 : (if s.ms = 999 then 0 else s.ms + 1) = 0 := by
    rw [if_pos hms]
  rw [e1, e2, e3]
  unfold lcd_display_time
  dsimp only
  rw [if_neg not_frame_fits_1000]
  rfl

theorem ticks_succ (n : Nat) (s : State) : ticks (n + 1) s = (ticks n s).bind Timer0_ISR :=
  rfl

theorem ticks_succ_head (n : Nat) (s : State) :
    ticks (n + 1) s = (Timer0_ISR s).bind (ticks n) := by
  induction n with
  | zero =>
    rw [ticks_succ]
    cases h : Timer0_ISR s <;> simp [ticks, h]
  | succ n ih =>
    rw [ticks_succ, ih]
    cases h : Timer0_ISR s
    · rfl
    · simp [ticks_succ]

theorem ticks_stopped (n : Nat) (s : State) (h : s.run = 0) :
    ∃ t, ticks n s = some t ∧ t.run = 0 ∧ t.ms = s.ms ∧ t.sec = s.sec ∧ t.min = s.min
      ∧ t.io0 = s.io0 := by
  induction n with
  | zero => exact ⟨s, rfl, h, rfl, rfl, rfl, rfl⟩
  | succ n ih =>
    obtain ⟨t, ht, r, e1, e2, e3, e4⟩ := ih
    refine ⟨{ t with T0IR := 1, VICVectAddr := 0 }, ?_, r, e1, e2, e3, e4⟩
    rw [ticks_succ, ht]
    exact isr_stopped t r

theorem tick_entries_stopped (n : Nat) (s : State) (h : s.run = 0) :
    (tick_entries n s).length = n
      ∧ ∀ t ∈ tick_entries n s, t.run = 0 ∧ t.ms = s.ms ∧ t.sec = s.sec ∧ t.min = s.min := by
  induction n generalizing s with
  | zero => exact ⟨rfl, fun t ht => by simp [tick_entries] at ht⟩
  | succ n ih =>
    have hs := isr_stopped s h
    obtain ⟨l, m⟩ := ih { s with T0IR := 1, VICVectAddr := 0 } h
    refine ⟨?_, ?_⟩
    · simp only [tick_entries, hs, List.length_cons, l]
    · intro t ht
      simp only [tick_entries, hs, List.mem_cons] at ht
      rcases ht with rfl | ht
      · exact ⟨h, rfl, rfl, rfl⟩
      · exact m t ht

/-! ## Facts about event sequences -/

theorem exec_cons (s : State) (e : Event) (rest : List Event) :
    exec s (e :: rest) = (step s e).bind (fun t => exec t rest) :=
  rfl

theorem exec_ticks (n : Nat) (s : State) :
    exec s (List.replicate n Event.tick) = ticks n s := by
  induction n generalizing s with
  | zero => rfl
  | succ n ih =>
    rw [List.replicate_succ, exec_cons, ticks_succ_head]
    show (Timer0_ISR s).bind _ = _
    cases h : Timer0_ISR s
    · rfl
    · simp [ih]

theorem frame_fits_zero : frame_fits 0 0 0 := by decide

theorem on_reset_eq (s : State) :
    on_reset s = some
      { s with
        run := 0
        min := 0
        sec := 0
        ms := 0
        io0 := s.io0 ++ lcd_cmd 0x80 ++ lcd_string (sprintf_bytes 0 0 0) } := by
  unfold on_reset lcd_display_time reset_clear_ms reset_clear_sec reset_clear_min reset_clear_run
  dsimp only
  rw [if_pos frame_fits_zero]

theorem isr_normalised (s t : State) (h : Normalised s) (ht : Timer0_ISR s = some t) :
    Normalised t := by
  obtain ⟨hms, hsec⟩ := h
  by_cases hr : s.run = 0
  · rw [isr_stopped s hr] at ht
    cases ht
    exact ⟨hms, hsec⟩
  · obtain ⟨e1, e2, _, _⟩ := isr_running_some s t hr hms hsec ht
    refine ⟨?_, ?_⟩
    · rw [e1]; split_ifs <;> omega
    · rw [e2]; split_ifs <;> omega

theorem step_normalised (s t : State) (e : Event) (h : Normalised s) (ht : step s e = some t) :
    Normalised t := by
  cases e with
  | tick => exact isr_normalised s t h ht
  | start => cases ht; exact h
  | stop => cases ht; exact h
  | reset =>
    have : on_reset s = some t := ht
    rw [on_reset_eq] at this
    cases this
    exact ⟨Nat.zero_le _, Nat.zero_le _⟩

/-- Every state an event sequence ends in, when all its steps are defined, is in range. -/
theorem exec_normalised (evs : List Event) (s t : State) (h : Normalised s)
    (ht : exec s evs = some t) : Normalised t := by
  induction evs generalizing s with
  | nil => cases ht; exact h
  | cons e rest ih =>
    rw [exec_cons] at ht
    cases hs : step s e with
    | none => rw [hs] at ht; cases ht
    | some u =>
      rw [hs] at ht
      exact ih u (step_normalised s u e h hs) ht

/-- Closed form of counting, up to the last tick whose redraw fits the buffer. -/
theorem ticks_closed_form (s0 : State)
    (h0 : s0.min = 0 ∧ s0.sec = 0 ∧ s0.ms = 0 ∧ s0.run = 1) (n : Nat) (hn : n < 60000000) :
    ∃ t, ticks n s0 = some t ∧ t.min = n / 60000 ∧ t.sec = (n / 1000) % 60
      ∧ t.ms = n % 1000 ∧ t.run = 1 := by
  obtain ⟨z1, z2, z3, z4⟩ := h0
  induction n with
  | zero => exact ⟨s0, rfl, z1, z2, z3, z4⟩
  | succ n ih =>
    obtain ⟨t, ht, i1, i2, i3, i4⟩ := ih (by omega)
    have hr : t.run ≠ 0 := by rw [i4]; decide
    have hms : t.ms ≤ 999 := by omega
    have hsec : t.sec ≤ 59 := by omega
    obtain ⟨u, hu⟩ := isr_running_defined t hr hms hsec (by omega)
    obtain ⟨e1, e2, e3, e4⟩ := isr_running_some t u hr hms hsec hu
    refine ⟨u, by rw [ticks_succ, ht]; exact hu, ?_, ?_, ?_, by rw [e4, i4]⟩
    · rw [e3, i1, i2, i3]
      unfold UINT_RANGE
      split_ifs with c
      · have : n / 60000 + 1 = (n + 1) / 60000 := by omega
        rw [this]
        exact Nat.mod_eq_of_lt (by omega)
      · omega
    · rw [e2, i2, i3]
      split_ifs <;> omega
    · rw [e1, i3]
      split_ifs <;> omega

/-- The 60,000,000th tick of an uninterrupted run has to draw minute 1000: it is undefined. -/
theorem ticks_overrun (s0 : State) (h0 : s0.min = 0 ∧ s0.sec = 0 ∧ s0.ms = 0 ∧ s0.run = 1) :
    ticks 60000000 s0 = none := by
  obtain ⟨t, ht, i1, i2, i3, i4⟩ := ticks_closed_form s0 h0 59999999 (by decide)
  have hr : t.run ≠ 0 := by rw [i4]; decide
  rw [show (60000000 : Nat) = 59999999 + 1 from rfl, ticks_succ, ht]
  exact isr_overrun t hr (by omega) (by omega) (by omega)

theorem isr_some_ms (s t : State) (hr : s.run ≠ 0) (h : Timer0_ISR s = some t) :
    t.ms = (if (s.ms + 1) % UINT_RANGE ≥ 1000 then 0 else (s.ms + 1) % UINT_RANGE) := by
  unfold Timer0_ISR at h
  rw [if_pos hr, Option.map_eq_some'] at h
  obtain ⟨u, hu, rfl⟩ := h
  obtain ⟨_, e, _⟩ := lcd_display_time_some _ u hu
  show u.ms = _
  rw [e]
  dsimp only
  split_ifs <;> rfl

/-! ## C1: range invariant -/

/-- C1 at a failing input: from the state in which the polling loop is entered, start followed
by 59,999,999 tick callbacks ends at (999, 59, 999), in range, but one more tick carries the
minutes to 1000 and its redraw writes 17 bytes into the 16-byte buffer: start followed by
60,000,000 ticks has no defined final state, so not every finite sequence of ticks and button
actions ends in a state with the counters in range.  The carry itself is done in one callback:
a tick from (7, 59, 999) ends at (8, 0, 0). -/
theorem C1_overrun_on_long_run :
    (exec initial (Event.start :: List.replicate 59999999 Event.tick)).map elapsed
        = some (999, 59, 999)
      ∧ exec initial (Event.start :: List.replicate 60000000 Event.tick) = none
      ∧ (Timer0_ISR state_carry).map elapsed = some (8, 0, 0) := by
  have h0 : (on_start initial).min = 0 ∧ (on_start initial).sec = 0 ∧ (on_start initial).ms = 0
      ∧ (on_start initial).run = 1 := ⟨rfl, rfl, rfl, rfl⟩
  have hstep : ∀ l, exec initial (Event.start :: l) = exec (on_start initial) l := fun _ => rfl
  refine ⟨?_, ?_, by decide⟩
  · obtain ⟨t, ht, i1, i2, i3, _⟩ := ticks_closed_form (on_start initial) h0 59999999 (by decide)
    rw [hstep, exec_ticks, ht]
    show some (t.min, t.sec, t.ms) = _
    rw [i1, i2, i3]
  · rw [hstep, exec_ticks]
    exact ticks_overrun (on_start initial) h0

/-! ## C2: strict monotonicity of a tick -/

/-- C2 fails as stated: at minutes = 4294967295, sec = 59, ms = 999 (a running, in-range state)
the tick wraps the minutes counter and the elapsed time becomes (0, 0, 0), which is not greater;
and at (999, 59, 999) the tick has to draw minute 1000, overruns the buffer and yields no
triple at all. -/
theorem C2_counterexample :
    (state_at_wrap.run ≠ 0 ∧ state_at_wrap.ms ≤ 999 ∧ state_at_wrap.sec ≤ 59
        ∧ state_at_wrap.min < UINT_RANGE)
      ∧ (Timer0_ISR state_at_wrap).map elapsed = some (0, 0, 0)
      ∧ ¬ lexLt (elapsed state_at_wrap) (0, 0, 0)
      ∧ (state_999_59_999.run ≠ 0 ∧ state_999_59_999.ms ≤ 999 ∧ state_999_59_999.sec ≤ 59
        ∧ state_999_59_999.min < UINT_RANGE)
      ∧ Timer0_ISR state_999_59_999 = none := by
  decide

/-- C2 (amended): for every running state with ms in 0..999, sec in 0..59 and minutes an
`unsigned int`, other than the single time (4294967295, 59, 999), every tick callback that
completes yields a triple strictly greater in lexicographic (minutes, seconds, milliseconds)
order; and the tick does complete, with such a triple, whenever the minutes after it are at
most 999, that is, for minutes below 999 and for minutes 999 unless the time is
(999, 59, 999). -/
theorem C2_tick_strictly_increases (s : State) (hr : s.run ≠ 0) (hms : s.ms ≤ 999)
    (hsec : s.sec ≤ 59) (hmin : s.min < UINT_RANGE)
    (hne : ¬ (s.min = UINT_RANGE - 1 ∧ s.sec = 59 ∧ s.ms = 999)) :
    (∀ t, Timer0_ISR s = some t → lexLt (elapsed s) (elapsed t))
      ∧ ((s.min < 999 ∨ (s.min = 999 ∧ ¬ (s.sec = 59 ∧ s.ms = 999))) →
          ∃ t, Timer0_ISR s = some t ∧ lexLt (elapsed s) (elapsed t)) := by
  have key : ∀ t, Timer0_ISR s = some t → lexLt (elapsed s) (elapsed t) := by
    intro t ht
    obtain ⟨e1, e2, e3, _⟩ := isr_running_some s t hr hms hsec ht
    unfold lexLt elapsed
    simp only [e1, e2, e3]
    unfold UINT_RANGE at *
    by_cases c1 : s.ms = 999
    · by_cases c2 : s.sec = 59
      · left
        have hlt : s.min + 1 < 2 ^ 32 := by
          have : s.min ≠ 2 ^ 32 - 1 := fun h => hne ⟨h, c2, c1⟩
          omega
        rw [if_pos ⟨c1, c2⟩, Nat.mod_eq_of_lt hlt]
        omega
      · right
        refine ⟨by rw [if_neg (fun h => c2 h.2)], Or.inl ?_⟩
        rw [if_pos c1, if_neg c2]
        omega
    · right
      refine ⟨by rw [if_neg (fun h => c1 h.1)], Or.inr ⟨by rw [if_neg c1], ?_⟩⟩
      rw [if_neg c1]
      omega
  refine ⟨key, fun hdom => ?_⟩
  obtain ⟨t, ht⟩ := isr_running_defined s hr hms hsec hdom
  exact ⟨t, ht, key t ht⟩

theorem C2_tick_strictly_increases_witness :
    (state_carry.run ≠ 0 ∧ state_carry.ms ≤ 999 ∧ state_carry.sec ≤ 59
        ∧ state_carry.min < UINT_RANGE
        ∧ ¬ (state_carry.min = UINT_RANGE - 1 ∧ state_carry.sec = 59 ∧ state_carry.ms = 999))
      ∧ (state_carry.min < 999 ∨ (state_carry.min = 999
          ∧ ¬ (state_carry.sec = 59 ∧ state_carry.ms = 999)))
      ∧ ∃ t, Timer0_ISR state_carry = some t ∧ lexLt (elapsed state_carry) (elapsed t) :=
  ⟨⟨by decide, by decide, by decide, by decide, by decide⟩, by decide,
    (C2_tick_strictly_increases state_carry (by decide) (by decide) (by decide)
      (by decide) (by decide)).2 (by decide)⟩

/-! ## C3: closed form of counting -/

/-- C3 at a failing input: n = 60,000,000 has n / 60000 = 1000, well inside the range of the
minutes counter, but 60,000,000 tick callbacks from (min = 0, sec = 0, ms = 0, run = 1) do not
yield (1000, 0, 0): the last of them has to draw minute 1000 and overruns the 16-byte buffer,
so no final state is defined.  The example of the claim holds: 1500 ticks give (0, 1, 500). -/
theorem C3_overrun_at_minute_1000 :
    60000000 / 60000 < UINT_RANGE
      ∧ ticks 60000000 (on_start boot) = none
      ∧ (ticks 59999999 (on_start boot)).map elapsed = some (999, 59, 999)
      ∧ (ticks 1500 (on_start boot)).map elapsed = some (0, 1, 500) := by
  have h0 : (on_start boot).min = 0 ∧ (on_start boot).sec = 0 ∧ (on_start boot).ms = 0
      ∧ (on_start boot).run = 1 := ⟨rfl, rfl, rfl, rfl⟩
  refine ⟨by decide, ticks_overrun (on_start boot) h0, ?_, ?_⟩
  · obtain ⟨t, ht, i1, i2, i3, _⟩ := ticks_closed_form (on_start boot) h0 59999999 (by decide)
    rw [ht]
    show some (t.min, t.sec, t.ms) = _
    rw [i1, i2, i3]
  · obtain ⟨t, ht, i1, i2, i3, _⟩ := ticks_closed_form (on_start boot) h0 1500 (by decide)
    rw [ht]
    show some (t.min, t.sec, t.ms) = _
    rw [i1, i2, i3]

/-! ## C4: reset -/

/-- C4: from every state the reset branch completes and yields run = 0 and
(min, sec, ms) = (0, 0, 0), and any number `k` of further tick callbacks complete and leave a
state that still has run = 0 and time (0, 0, 0); in particular reset from the running state
(1, 30, 250) followed by one tick gives (0, 0, 0) with run = 0. -/
theorem C4_reset_postcondition (s : State) (k : Nat) :
    (∃ r, on_reset s = some r ∧ r.run = 0 ∧ elapsed r = (0, 0, 0)
        ∧ ∃ t, ticks k r = some t ∧ t.run = 0 ∧ elapsed t = (0, 0, 0))
      ∧ ((on_reset state_1_30_250).bind Timer0_ISR).map State.run = some 0
      ∧ ((on_reset state_1_30_250).bind Timer0_ISR).map elapsed = some (0, 0, 0) := by
  refine ⟨⟨_, on_reset_eq s, rfl, rfl, ?_⟩, by decide, by decide⟩
  obtain ⟨t, ht, r, e1, e2, e3, _⟩ := ticks_stopped k
    { s with
      run := 0
      min := 0
      sec := 0
      ms := 0
      io0 := s.io0 ++ lcd_cmd 0x80 ++ lcd_string (sprintf_bytes 0 0 0) } rfl
  refine ⟨t, ht, r, ?_⟩
  unfold elapsed
  rw [e1, e2, e3]

/-! ## C5: tick while stopped -/

/-- C5: in every state with run = 0, whatever the counters hold, the tick callback completes,
leaves ms, sec, min and run as they are and writes nothing to the LCD port, and so does any
number `k` of tick callbacks. -/
theorem C5_tick_while_stopped (s : State) (h : s.run = 0) (k : Nat) :
    (∃ t, Timer0_ISR s = some t ∧ t.ms = s.ms ∧ t.sec = s.sec ∧ t.min = s.min
        ∧ t.run = 0 ∧ t.io0 = s.io0)
      ∧ (∃ t, ticks k s = some t ∧ elapsed t = elapsed s ∧ t.run = 0 ∧ t.io0 = s.io0) := by
  refine ⟨⟨_, isr_stopped s h, rfl, rfl, rfl, h, rfl⟩, ?_⟩
  obtain ⟨t, ht, r, e1, e2, e3, e4⟩ := ticks_stopped k s h
  refine ⟨t, ht, ?_, r, e4⟩
  unfold elapsed
  rw [e1, e2, e3]

theorem C5_tick_while_stopped_witness :
    state_stopped_odd.run = 0
      ∧ (∃ t, Timer0_ISR state_stopped_odd = some t ∧ t.ms = state_stopped_odd.ms
          ∧ t.sec = state_stopped_odd.sec ∧ t.min = state_stopped_odd.min
          ∧ t.run = 0 ∧ t.io0 = state_stopped_odd.io0)
      ∧ (∃ t, ticks 3 state_stopped_odd = some t ∧ elapsed t = elapsed state_stopped_odd
          ∧ t.run = 0 ∧ t.io0 = state_stopped_odd.io0) :=
  ⟨rfl, (C5_tick_while_stopped state_stopped_odd rfl 3).1,
    (C5_tick_while_stopped state_stopped_odd rfl 3).2⟩

/-! ## C6: stop freezes, start resumes -/

/-- C6: for every state `s` and every number `j` of tick callbacks between a stop and the next
start, those callbacks complete and the elapsed time right after that start is the elapsed time
of `s`; start and stop leave ms, sec and min alone; the first tick after the start does exactly
what a tick does from the time held at the stop; whenever it completes its ms is the successor
of `s.ms` (or 0 on carry), never a count restarted from zero; and it completes whenever `s` is
in range with minutes below 999. -/
theorem C6_stop_freezes_start_resumes (s : State) (j : Nat) :
    ∃ t, ticks j (on_stop s) = some t
      ∧ elapsed (on_start t) = elapsed s
      ∧ (on_start t).run = 1
      ∧ elapsed (on_start s) = elapsed s ∧ elapsed (on_stop s) = elapsed s
      ∧ Timer0_ISR (on_start t) = Timer0_ISR (on_start s)
      ∧ (∀ u, Timer0_ISR (on_start t) = some u →
          u.ms = (if (s.ms + 1) % UINT_RANGE ≥ 1000 then 0 else (s.ms + 1) % UINT_RANGE))
      ∧ (s.ms ≤ 999 → s.sec ≤ 59 → s.min < 999 → ∃ u, Timer0_ISR (on_start t) = some u) := by
  obtain ⟨t, ht, _, e1, e2, e3, e4⟩ := ticks_stopped j (on_stop s) rfl
  have a1 : (on_start t).ms = s.ms := e1
  have a2 : (on_start t).sec = s.sec := e2
  have a3 : (on_start t).min = s.min := e3
  have hr : (on_start t).run ≠ 0 := fun h => absurd h (by decide : (1 : Nat) ≠ 0)
  refine ⟨t, ht, ?_, rfl, rfl, rfl, isr_congr _ _ e1 e2 e3 rfl e4, ?_, ?_⟩
  · unfold elapsed
    rw [a1, a2, a3]
  · intro u hu
    rw [isr_some_ms (on_start t) u hr hu, a1]
  · intro hms hsec hmin
    exact isr_running_defined (on_start t) hr (by rw [a1]; exact hms) (by rw [a2]; exact hsec)
      (Or.inl (by rw [a3]; exact hmin))

theorem C6_stop_freezes_start_resumes_witness :
    ∃ t, ticks 2 (on_stop state_1_30_250) = some t
      ∧ elapsed (on_start t) = (1, 30, 250)
      ∧ (on_start t).run = 1
      ∧ ∃ u, Timer0_ISR (on_start t) = some u ∧ u.ms = 251 := by
  obtain ⟨t, ht, e1, e2, _, _, _, e6, e7⟩ := C6_stop_freezes_start_resumes state_1_30_250 2
  obtain ⟨u, hu⟩ := e7 (by decide) (by decide) (by decide)
  exact ⟨t, ht, e1, e2, u, hu, e6 u hu⟩

/-! ## C7: display format -/

/-- C7 at a failing input: with the minutes counter at 2147483648 (sec = 0, ms = 0) the string
built by `lcd_display_time` is "Time -2147483648:00:000", not "Time 2147483648:00:000": the
`unsigned int` is converted by `%02d` as a signed `int`.  The example of the claim,
(min = 2, sec = 5, ms = 7), does render as "Time 02:05:007". -/
theorem C7_minutes_rendered_signed :
    sprintf_time 2147483648 0 0 = "Time -2147483648:00:000".toList
      ∧ spec_time_string 2147483648 0 0 = "Time 2147483648:00:000".toList
      ∧ sprintf_time 2147483648 0 0 ≠ spec_time_string 2147483648 0 0
      ∧ sprintf_time 2 5 7 = "Time 02:05:007".toList := by
  decide

/-! ## C8: button priority -/

/-- C8: in one iteration of the polling loop with no tick interleaved, from every state and for
every three readings of the input port, the iteration completes, and: if Reset reads pressed it
ends with run = 0 and time (0, 0, 0) whatever Start and Stop read; otherwise, if Stop reads
pressed it ends with run = 0 and the time unchanged whatever Start reads; otherwise, if Start
reads pressed it ends with run = 1 and the time unchanged; with no button pressed the state is
unchanged. -/
theorem C8_button_priority (s : State) (pin1 pin2 pin3 : Nat) :
    (pin3 &&& RESET = 0 →
        ∃ r, loop_body pin1 pin2 pin3 s = some r ∧ r.run = 0 ∧ elapsed r = (0, 0, 0))
      ∧ (pin3 &&& RESET ≠ 0 → pin2 &&& STOP = 0 →
        ∃ r, loop_body pin1 pin2 pin3 s = some r ∧ r.run = 0 ∧ elapsed r = elapsed s)
      ∧ (pin3 &&& RESET ≠ 0 → pin2 &&& STOP ≠ 0 → pin1 &&& START = 0 →
        ∃ r, loop_body pin1 pin2 pin3 s = some r ∧ r.run = 1 ∧ elapsed r = elapsed s)
      ∧ (pin3 &&& RESET ≠ 0 → pin2 &&& STOP ≠ 0 → pin1 &&& START ≠ 0 →
        loop_body pin1 pin2 pin3 s = some s) := by
  refine ⟨?_, ?_, ?_, ?_⟩
  · intro h3
    simp only [loop_body, h3, if_true]
    exact ⟨_, on_reset_eq _, rfl, rfl⟩
  · intro h3 h2
    simp only [loop_body, h3, h2, if_true, if_false]
    exact ⟨_, rfl, rfl, by split_ifs <;> rfl⟩
  · intro h3 h2 h1
    simp only [loop_body, h3, h2, h1, if_true, if_false]
    exact ⟨_, rfl, rfl, rfl⟩
  · intro h3 h2 h1
    simp only [loop_body, h3, h2, h1, if_false]

theorem C8_button_priority_witness :
    ((0 &&& RESET = 0)
        ∧ ∃ r, loop_body 0 0 0 state_1_30_250 = some r ∧ r.run = 0 ∧ elapsed r = (0, 0, 0))
      ∧ ((65536 &&& RESET ≠ 0 ∧ 0 &&& STOP = 0)
        ∧ ∃ r, loop_body 0 0 65536 state_1_30_250 = some r ∧ r.run = 0
            ∧ elapsed r = elapsed state_1_30_250)
      ∧ ((65536 &&& RESET ≠ 0 ∧ 32768 &&& STOP ≠ 0 ∧ 0 &&& START = 0)
        ∧ ∃ r, loop_body 0 32768 65536 state_stopped_odd = some r ∧ r.run = 1
            ∧ elapsed r = elapsed state_stopped_odd)
      ∧ ((65536 &&& RESET ≠ 0 ∧ 32768 &&& STOP ≠ 0 ∧ 16384 &&& START ≠ 0)
        ∧ loop_body 16384 32768 65536 state_1_30_250 = some state_1_30_250) :=
  ⟨⟨by decide, (C8_button_priority state_1_30_250 0 0 0).1 (by decide)⟩,
    ⟨⟨by decide, by decide⟩,
      (C8_button_priority state_1_30_250 0 0 65536).2.1 (by decide) (by decide)⟩,
    ⟨⟨by decide, by decide, by decide⟩,
      (C8_button_priority state_stopped_odd 0 32768 65536).2.2.1
        (by decide) (by decide) (by decide)⟩,
    ⟨⟨by decide, by decide, by decide⟩,
      (C8_button_priority state_1_30_250 16384 32768 65536).2.2.2
        (by decide) (by decide) (by decide)⟩⟩

/-! ## C9: tick callbacks interleaved with the reset branch -/

/-- C9: for every prior state and every numbers `j0`, `j1`, `j2`, `j3` of tick callbacks taken
after `run = 0`, after `min = 0`, after `sec = 0` and after `ms = 0` of the reset branch, each
of these `j0 + j1 + j2 + j3` callbacks is entered with run = 0, completes and only acknowledges
the interrupt: it changes neither ms, sec, min nor the LCD port, and what it does does not
depend on the counters; and the reset branch completes in a state with run = 0, time (0, 0, 0),
in which the LCD has received exactly the frame for (0, 0, 0) on top of what it had received
before. -/
theorem C9_reset_with_interleaved_ticks (s : State) (j0 j1 j2 j3 : Nat) :
    (∀ t ∈ reset_tick_entries j0 j1 j2 j3 s,
        t.run = 0 ∧ Timer0_ISR t = some { t with T0IR := 1, VICVectAddr := 0 })
      ∧ (reset_tick_entries j0 j1 j2 j3 s).length = j0 + j1 + j2 + j3
      ∧ ∃ r, reset_interleaved j0 j1 j2 j3 s = some r
          ∧ r.run = 0 ∧ elapsed r = (0, 0, 0)
          ∧ r.io0 = s.io0 ++ lcd_cmd 0x80 ++ lcd_string (sprintf_bytes 0 0 0) := by
  have ra : (reset_clear_run s).run = 0 := rfl
  obtain ⟨a, ha, a0, _, _, _, a4⟩ := ticks_stopped j0 (reset_clear_run s) ra
  have rb : (reset_clear_min a).run = 0 := a0
  obtain ⟨b, hb, b0, _, _, b3, b4⟩ := ticks_stopped j1 (reset_clear_min a) rb
  have rc : (reset_clear_sec b).run = 0 := b0
  obtain ⟨c, hc, c0, _, c2, c3, c4⟩ := ticks_stopped j2 (reset_clear_sec b) rc
  have rd : (reset_clear_ms c).run = 0 := c0
  obtain ⟨d, hd, d0, d1, d2, d3, d4⟩ := ticks_stopped j3 (reset_clear_ms c) rd
  obtain ⟨la, ma⟩ := tick_entries_stopped j0 (reset_clear_run s) ra
  obtain ⟨lb, mb⟩ := tick_entries_stopped j1 (reset_clear_min a) rb
  obtain ⟨lc, mc⟩ := tick_entries_stopped j2 (reset_clear_sec b) rc
  obtain ⟨ld, md⟩ := tick_entries_stopped j3 (reset_clear_ms c) rd
  have hms : d.ms = 0 := d1
  have hsec : d.sec = 0 := by rw [d2]; exact c2
  have hmin : d.min = 0 := by rw [d3]; exact (c3.trans b3)
  have hio : d.io0 = s.io0 := by
    rw [d4]
    exact c4.trans (b4.trans a4)
  refine ⟨?_, ?_, ?_⟩
  · intro t ht
    have hrun : t.run = 0 := by
      simp only [reset_tick_entries, ha, hb, hc, List.mem_append] at ht
      rcases ht with ht | ht | ht | ht
      · exact (ma t ht).1
      · exact (mb t ht).1
      · exact (mc t ht).1
      · exact (md t ht).1
    exact ⟨hrun, isr_stopped t hrun⟩
  · simp only [reset_tick_entries, ha, hb, hc, List.length_append, la, lb, lc, ld]
    omega
  · have hfit : frame_fits d.min d.sec d.ms := by
      rw [hms, hsec, hmin]
      exact frame_fits_zero
    refine ⟨{ d with io0 := d.io0 ++ lcd_cmd 0x80 ++ lcd_string (sprintf_bytes d.min d.sec d.ms) },
      ?_, d0, ?_, ?_⟩
    · simp only [reset_interleaved, ha, hb, hc, hd, Option.some_bind]
      unfold lcd_display_time
      rw [if_pos hfit]
    · show (d.min, d.sec, d.ms) = (0, 0, 0)
      rw [hms, hsec, hmin]
    · show d.io0 ++ lcd_cmd 0x80 ++ lcd_string (sprintf_bytes d.min d.sec d.ms) = _
      rw [hms, hsec, hmin, hio]

theorem C9_reset_with_interleaved_ticks_witness :
    (∀ t ∈ reset_tick_entries 1 2 0 1 state_1_30_250,
        t.run = 0 ∧ Timer0_ISR t = some { t with T0IR := 1, VICVectAddr := 0 })
      ∧ (reset_tick_entries 1 2 0 1 state_1_30_250).length = 4
      ∧ ∃ r, reset_interleaved 1 2 0 1 state_1_30_250 = some r
          ∧ r.run = 0 ∧ elapsed r = (0, 0, 0) :=
  have h := C9_reset_with_interleaved_ticks state_1_30_250 1 2 0 1
  ⟨h.1, h.2.1, h.2.2.imp (fun _ hr => ⟨hr.1, hr.2.1, hr.2.2.1⟩)⟩

/-! ## C10: length of the rendered string against the buffer -/

/-- C10 at a failing input: with the minutes counter at 4294967295 (sec = 0, ms = 0) the string
is "Time -1:00:000", 14 characters, which fits the 16-byte buffer with its NUL although
minutes > 999, and it does not need 17 bytes: the `unsigned int` is converted by `%02d` as a
signed `int`.  The same holds down to minutes = 4294967197 ("-99"); at 4294967196 the bound of
the claim holds again, as it does at 999 (fits) and at 1000 (17 bytes). -/
theorem C10_signed_minutes_fit :
    sprintf_time 4294967295 0 0 = "Time -1:00:000".toList
      ∧ (sprintf_time 4294967295 0 0).length ≤ 15
      ∧ (sprintf_bytes 4294967295 0 0).length ≤ BUFFER_SIZE
      ∧ ¬ (4294967295 ≤ 999)
      ∧ ¬ (17 ≤ (sprintf_bytes 4294967295 0 0).length)
      ∧ (sprintf_bytes 4294967197 59 999).length = 16
      ∧ (sprintf_bytes 4294967196 59 999).length = 17
      ∧ (sprintf_bytes 999 59 999).length = 16
      ∧ (sprintf_bytes 1000 59 999).length = 17 := by
  decide

end Stopwatch
